import Mathlib

/-!
# Verification of the curve-amm-math specification against its TypeScript source

This file gives a shallow embedding, in Lean, of the arithmetic core of the
`curve-amm-math` repository and proves (or refutes) the frozen claims about it.

Modelling conventions:

* JavaScript `bigint` values are modelled as `Int`.  JavaScript `bigint`
  division truncates toward zero; it is modelled by `jsDiv` below, which is
  proved equal to `Int.tdiv` (`jsDiv_eq_tdiv`).  A JavaScript division whose
  divisor is `0n` throws a `RangeError`; wherever the source can actually hit
  such a division, the embedding uses the checked division `jdiv`, which
  returns `Except.error Err.divByZero`.  Where a function's own guards make a
  divisor provably non-zero, the pure `jsDiv` is used directly.
* A TypeScript function that can `throw` is modelled as returning
  `Except Err Int`; each distinct `throw new Error(...)` site is mapped to a
  distinct `Err` constructor, named after the error taxonomy of the spec.
* `for` loops with an iteration cap are modelled as structural recursion on a
  fuel argument equal to the remaining iterations.
* Loops over coin indices `0 ≤ k < nCoins` are modelled as structural
  recursion over the remaining count, carrying the current index `k`.

The embedded modules:

* `SSX` — `src/stableswap-exact.ts` (exact-precision StableSwap).
* `SS`  — the normalized-mode StableSwap module (`stableswap.ts`).
* `CS`  — the hardened CryptoSwap module (`cryptoswap.ts`).
* `CSOld` — the earlier CryptoSwap variant's `newtonY` (same file history).
-/

set_option maxRecDepth 40000
set_option maxHeartbeats 12000000

/-- Failure kinds.  Each constructor corresponds to one (or one family of)
`throw new Error(...)` site of the TypeScript source; `divByZero` stands for
the `RangeError` that JavaScript itself raises when a `bigint` division has a
zero divisor. -/
inductive Err where
  | divByZero
  | invalidParam
  | invalidIndex
  | invalidA
  | invalidGamma
  | zeroBalance
  | zeroD
  | yZero
  | fprimeZero
  | k0Zero
  | badDenom
  | noConverge
  | invalidRamp
  | invalidSlippage
  | supplyZero
  | exceedsSupply
  | insufficientLiquidity
  | prodZero
  deriving DecidableEq, Repr

/-- `constants.ts`: `PRECISION = 10n ** 18n`. -/
def PRECISION : Int := 10 ^ 18

/-- `constants.ts`: `FEE_DENOMINATOR = 10n ** 10n`. -/
def FEE_DENOMINATOR : Int := 10 ^ 10

/-- `constants.ts`: `A_PRECISION = 100n`. -/
def A_PRECISION : Int := 100

/-- `constants.ts`: `A_MULTIPLIER = 10000n`. -/
def A_MULTIPLIER : Int := 10000

/-- `constants.ts`: `MAX_ITERATIONS = 255`. -/
def MAX_ITERATIONS : Nat := 255

/-- `constants.ts`: `CONVERGENCE_THRESHOLD = 10n ** 14n`. -/
def CONVERGENCE_THRESHOLD : Int := 10 ^ 14

/-- `constants.ts`: `MIN_CONVERGENCE = 100n`. -/
def MIN_CONVERGENCE : Int := 100

/-- `constants.ts`: `DERIVATIVE_EPSILON = 10n ** 12n`. -/
def DERIVATIVE_EPSILON : Int := 10 ^ 12

/-- `constants.ts`: `BPS_DENOMINATOR = 10000n`. -/
def BPS_DENOMINATOR : Int := 10000

/-- JavaScript `bigint` division (truncation toward zero), written with
Euclidean division on non-negative operands so that `simp`'s built-in
numeric procedures can evaluate it on literals. -/
def jsDiv (a b : Int) : Int :=
  if 0 ≤ a then (if 0 ≤ b then a / b else -(a / -b))
  else (if 0 ≤ b then -(-a / b) else -a / -b)

/-- `jsDiv` is exactly `Int.tdiv`, the division that truncates toward zero —
the semantics of JavaScript `bigint` division for non-zero divisors. -/
theorem jsDiv_eq_tdiv (a b : Int) : jsDiv a b = a.tdiv b := by
  unfold jsDiv
  rcases le_or_lt 0 a with ha | ha <;> rcases le_or_lt 0 b with hb | hb
  · rw [if_pos ha, if_pos hb, Int.tdiv_eq_ediv ha hb]
  · rw [if_pos ha, if_neg (not_le.mpr hb),
      ← Int.tdiv_eq_ediv ha (by omega : (0:Int) ≤ -b), Int.tdiv_neg]
    ring
  · rw [if_neg (not_le.mpr ha), if_pos hb,
      ← Int.tdiv_eq_ediv (by omega : (0:Int) ≤ -a) hb, Int.neg_tdiv]
    ring
  · rw [if_neg (not_le.mpr ha), if_neg (not_le.mpr hb),
      ← Int.tdiv_eq_ediv (by omega : (0:Int) ≤ -a) (by omega : (0:Int) ≤ -b),
      Int.neg_tdiv, Int.tdiv_neg]
    ring

/-- Checked JavaScript `bigint` division: a zero divisor is the `RangeError`
JavaScript throws, every other case is `jsDiv`. -/
def jdiv (a b : Int) : Except Err Int :=
  if b = 0 then .error .divByZero else .ok (jsDiv a b)

theorem jdiv_ok (a b : Int) (h : b ≠ 0) : jdiv a b = .ok (jsDiv a b) := by
  simp [jdiv, h]

/-- Boolean equality test on `Except Err Int`, used to let `decide`
evaluate concrete runs of the embedded functions efficiently. -/
def exEq (a b : Except Err Int) : Bool :=
  match a, b with
  | .ok x, .ok y => x == y
  | .error e, .error f => e == f
  | _, _ => false

theorem exEq_iff (a b : Except Err Int) : exEq a b = true ↔ a = b := by
  cases a <;> cases b <;> simp [exEq]

/-- `List.getD` on a two-element list at index `0` (evaluation helper). -/
theorem getD_pair_zero (a b d : Int) : List.getD [a, b] 0 d = a := rfl

/-- `List.getD` on a two-element list at index `1` (evaluation helper). -/
theorem getD_pair_one (a b d : Int) : List.getD [a, b] 1 d = b := rfl

namespace SS

/-!
## `stableswap.ts` — normalized-mode StableSwap

This module's functions contain no explicit `throw` statements; the only way
they can fail at runtime is JavaScript's `RangeError` on a zero-divisor
`bigint` division, modelled here by `jdiv`.
-/

/-- Inner fold of `getD`: `for (const x of xp) { D_P = (D_P * D) / x; }`. -/
def dpFold (D : Int) : List Int → Int → Except Err Int
  | [], acc => .ok acc
  | x :: xs, acc =>
    match jdiv (acc * D) x with
    | .error e => .error e
    | .ok acc' => dpFold D xs acc'

/-- The `for (let i = 0; i < MAX_ITERATIONS; i++)` loop of `getD`.  The
source breaks out of the loop on convergence and falls through to
`return D` when the iteration budget is spent, so fuel `0` returns the
current `D`. -/
def getDLoop (xp : List Int) (S Ann N nPow : Int) : Nat → Int → Except Err Int
  | 0, D => .ok D
  | fuel + 1, D =>
    match dpFold D xp D with
    | .error e => .error e
    | .ok dp0 =>
      let D_P := jsDiv dp0 nPow
      let numerator := (jsDiv (Ann * S) A_PRECISION + D_P * N) * D
      let denominator := jsDiv ((Ann - A_PRECISION) * D) A_PRECISION + (N + 1) * D_P
      match jdiv numerator denominator with
      | .error e => .error e
      | .ok Dnew =>
        if (if Dnew > D then Dnew - D ≤ 1 else D - Dnew ≤ 1) then .ok Dnew
        else getDLoop xp S Ann N nPow fuel Dnew

/-- `stableswap.ts` `getD(xp, Ann)`: Newton iteration for the StableSwap
invariant, normalized mode.  Note: no `Ann = 0` check, no zero-balance
check, and the loop result is returned even without convergence. -/
def getD (xp : List Int) (Ann : Int) : Except Err Int :=
  let N : Int := xp.length
  let nPow : Int := N ^ xp.length
  let S := xp.foldl (· + ·) 0
  if S = 0 then .ok 0
  else getDLoop xp S Ann N nPow MAX_ITERATIONS S

/-- The `for (let k = 0; ...)` accumulation of `getY`: starting at index `k`
with `rem` indices left, extends `(c, S)` by each index, substituting `x`
at index `i` and skipping index `j`. -/
def getYAcc (i j : Nat) (x : Int) (xp : List Int) (D N : Int) :
    Nat → Nat → Int × Int → Except Err (Int × Int)
  | _, 0, cS => .ok cS
  | k, rem + 1, (c, S) =>
    if k = i then
      match jdiv (c * D) (x * N) with
      | .error e => .error e
      | .ok c' => getYAcc i j x xp D N (k + 1) rem (c', S + x)
    else if k ≠ j then
      let xk := List.getD xp k 0
      match jdiv (c * D) (xk * N) with
      | .error e => .error e
      | .ok c' => getYAcc i j x xp D N (k + 1) rem (c', S + xk)
    else getYAcc i j x xp D N (k + 1) rem (c, S)

/-- The Newton loop shared by `getY` and `getYD` of `stableswap.ts`:
`y = (y*y + c) / (2*y + b - D)` with the `±1` convergence break; the
current `y` is returned when the iteration budget is spent. -/
def getYLoop (b c D : Int) : Nat → Int → Except Err Int
  | 0, y => .ok y
  | fuel + 1, y =>
    match jdiv (y * y + c) (2 * y + b - D) with
    | .error e => .error e
    | .ok ynew =>
      if (if ynew > y then ynew - y ≤ 1 else y - ynew ≤ 1) then .ok ynew
      else getYLoop b c D fuel ynew

/-- `stableswap.ts` `getY(i, j, x, xp, Ann, D)`.  No index validation of any
kind is performed. -/
def getY (i j : Nat) (x : Int) (xp : List Int) (Ann D : Int) : Except Err Int :=
  let N : Int := xp.length
  match getYAcc i j x xp D N 0 xp.length (D, 0) with
  | .error e => .error e
  | .ok (c0, S) =>
    match jdiv (c0 * D * A_PRECISION) (Ann * N) with
    | .error e => .error e
    | .ok c =>
      match jdiv (D * A_PRECISION) Ann with
      | .error e => .error e
      | .ok bd =>
        let b := S + bd
        getYLoop b c D MAX_ITERATIONS D

/-- `stableswap.ts` `dynamicFee(xpi, xpj, baseFee, feeMultiplier)`.  Unlike
the exact-precision module there is no guard for `(xpi+xpj)^2 = 0`. -/
def dynamicFee (xpi xpj baseFee feeMultiplier : Int) : Except Err Int :=
  if feeMultiplier ≤ FEE_DENOMINATOR then .ok baseFee
  else
    let xps2 := (xpi + xpj) ^ 2
    match jdiv ((feeMultiplier - FEE_DENOMINATOR) * 4 * xpi * xpj) xps2 with
    | .error e => .error e
    | .ok q =>
      jdiv (feeMultiplier * baseFee) (q + FEE_DENOMINATOR)

/-- `stableswap.ts` `getDy(i, j, dx, xp, Ann, baseFee, feeMultiplier)`.
Note: no index validation, no `dx = 0` check, and the final
`dy - feeAmount` is returned without clamping at `0`. -/
def getDy (i j : Nat) (dx : Int) (xp : List Int) (Ann baseFee feeMultiplier : Int) :
    Except Err Int :=
  let newXpI := List.getD xp i 0 + dx
  match getD xp Ann with
  | .error e => .error e
  | .ok D =>
    match getY i j newXpI xp Ann D with
    | .error e => .error e
    | .ok y =>
      let dy := List.getD xp j 0 - y - 1
      match dynamicFee (jsDiv (List.getD xp i 0 + newXpI) 2)
          (jsDiv (List.getD xp j 0 + y) 2) baseFee feeMultiplier with
      | .error e => .error e
      | .ok fee =>
        let feeAmount := jsDiv (dy * fee) FEE_DENOMINATOR
        .ok (dy - feeAmount)

/-- `stableswap.ts` `calculateMinDy(expectedOutput, slippageBps)`:
`(expectedOutput * BigInt(10000 - slippageBps)) / BigInt(10000)`, with no
validation of `slippageBps` whatsoever. -/
def calculateMinDy (expectedOutput slippageBps : Int) : Int :=
  jsDiv (expectedOutput * (10000 - slippageBps)) 10000

end SS

namespace SSX

/-!
## `src/stableswap-exact.ts` — exact-precision StableSwap

Functions of this module validate their inputs and `throw` on malformed
ones; each throw site maps to an `Err` constructor.
-/

/-- Pool parameters (`ExactPoolParams`). -/
structure ExactPoolParams where
  balances : List Int
  rates : List Int
  A : Int
  fee : Int
  offpegFeeMultiplier : Int

/-- `getXp(balances, rates)`: `xp[i] = rates[i] * balances[i] / PRECISION`,
after a length check. -/
def getXp (balances rates : List Int) : Except Err (List Int) :=
  if balances.length ≠ rates.length then .error .invalidParam
  else .ok (List.zipWith (fun r b => jsDiv (r * b) PRECISION) rates balances)

/-- The 255-iteration Newton loop of the exact `getD`; exceeding the budget
is `get_D did not converge`. -/
def getDLoop (xp : List Int) (S Ann N nPow : Int) : Nat → Int → Except Err Int
  | 0, _ => .error .noConverge
  | fuel + 1, D =>
    match SS.dpFold D xp D with
    | .error e => .error e
    | .ok dp0 =>
      let D_P := jsDiv dp0 nPow
      let numerator := (jsDiv (Ann * S) A_PRECISION + D_P * N) * D
      let denominator := jsDiv ((Ann - A_PRECISION) * D) A_PRECISION + (N + 1) * D_P
      match jdiv numerator denominator with
      | .error e => .error e
      | .ok Dnew =>
        if (if Dnew > D then Dnew - D ≤ 1 else D - Dnew ≤ 1) then .ok Dnew
        else getDLoop xp S Ann N nPow fuel Dnew

/-- `stableswap-exact.ts` `getD(xp, amp, nCoins)` with its full guard chain:
`nCoins < 2` and length mismatch are parameter errors, `amp = 0` is
`INVALID_A`, a zero sum returns `0`, a zero balance in a non-empty pool is
`ZERO_BALANCE`, and non-convergence after 255 iterations is `NO_CONVERGE`. -/
def getD (xp : List Int) (amp : Int) (nCoins : Nat) : Except Err Int :=
  if nCoins < 2 then .error .invalidParam
  else if xp.length ≠ nCoins then .error .invalidParam
  else if amp = 0 then .error .invalidA
  else
    let S := xp.foldl (· + ·) 0
    if S = 0 then .ok 0
    else if xp.any (· == 0) then .error .zeroBalance
    else
      let N : Int := nCoins
      getDLoop xp S (amp * N) N (N ^ nCoins) MAX_ITERATIONS S

/-- The index accumulation of the exact `getY`: substitutes `x` at index `i`,
skips index `j`, and throws `ZERO_BALANCE` on any zero operand. -/
def getYAcc (i j : Int) (x : Int) (xp : List Int) (D N : Int) :
    Nat → Nat → Int × Int → Except Err (Int × Int)
  | _, 0, cS => .ok cS
  | k, rem + 1, (c, S) =>
    if (k : Int) = i then
      if x = 0 then .error .zeroBalance
      else
        match jdiv (c * D) (x * N) with
        | .error e => .error e
        | .ok c' => getYAcc i j x xp D N (k + 1) rem (c', S + x)
    else if (k : Int) ≠ j then
      let xk := List.getD xp k 0
      if xk = 0 then .error .zeroBalance
      else
        match jdiv (c * D) (xk * N) with
        | .error e => .error e
        | .ok c' => getYAcc i j x xp D N (k + 1) rem (c', S + xk)
    else getYAcc i j x xp D N (k + 1) rem (c, S)

/-- The Newton loop shared by the exact `getY` and `getYD`: the denominator
`2y + b - D` is required to be positive (`BAD_DENOM` otherwise), and
exceeding 255 iterations is `NO_CONVERGE`. -/
def getYLoop (b c D : Int) : Nat → Int → Except Err Int
  | 0, _ => .error .noConverge
  | fuel + 1, y =>
    let denom := 2 * y + b - D
    if denom ≤ 0 then .error .badDenom
    else
      let ynew := jsDiv (y * y + c) denom
      if (if ynew > y then ynew - y ≤ 1 else y - ynew ≤ 1) then .ok ynew
      else getYLoop b c D fuel ynew

/-- `stableswap-exact.ts` `getY(i, j, x, xp, amp, D, nCoins)` with its guard
chain: `nCoins < 2` / length mismatch are parameter errors, `i = j` and
out-of-range indices are `INVALID_INDEX`, `amp = 0` is `INVALID_A`. -/
def getY (i j : Int) (x : Int) (xp : List Int) (amp D : Int) (nCoins : Nat) :
    Except Err Int :=
  if nCoins < 2 then .error .invalidParam
  else if xp.length ≠ nCoins then .error .invalidParam
  else if i = j then .error .invalidIndex
  else if i < 0 ∨ (nCoins : Int) ≤ i ∨ j < 0 ∨ (nCoins : Int) ≤ j then .error .invalidIndex
  else if amp = 0 then .error .invalidA
  else
    let N : Int := nCoins
    let Ann := amp * N
    match getYAcc i j x xp D N 0 nCoins (D, 0) with
    | .error e => .error e
    | .ok (c0, S) =>
      match jdiv (c0 * D * A_PRECISION) (Ann * N) with
      | .error e => .error e
      | .ok c =>
        match jdiv (D * A_PRECISION) Ann with
        | .error e => .error e
        | .ok bd => getYLoop (S + bd) c D MAX_ITERATIONS D

/-- The index accumulation of the exact `getYD`: like `getYAcc` but without
any substitution — it simply skips index `i`. -/
def getYDAcc (i : Int) (xp : List Int) (D N : Int) :
    Nat → Nat → Int × Int → Except Err (Int × Int)
  | _, 0, cS => .ok cS
  | k, rem + 1, (c, S) =>
    if (k : Int) ≠ i then
      let xk := List.getD xp k 0
      if xk = 0 then .error .zeroBalance
      else
        match jdiv (c * D) (xk * N) with
        | .error e => .error e
        | .ok c' => getYDAcc i xp D N (k + 1) rem (c', S + xk)
    else getYDAcc i xp D N (k + 1) rem (c, S)

/-- `stableswap-exact.ts` `getYD(amp, i, xp, D, nCoins)`. -/
def getYD (amp : Int) (i : Int) (xp : List Int) (D : Int) (nCoins : Nat) :
    Except Err Int :=
  if nCoins < 2 then .error .invalidParam
  else if xp.length ≠ nCoins then .error .invalidParam
  else if i < 0 ∨ (nCoins : Int) ≤ i then .error .invalidIndex
  else if amp = 0 then .error .invalidA
  else
    let N : Int := nCoins
    let Ann := amp * N
    match getYDAcc i xp D N 0 nCoins (D, 0) with
    | .error e => .error e
    | .ok (c0, S) =>
      match jdiv (c0 * D * A_PRECISION) (Ann * N) with
      | .error e => .error e
      | .ok c =>
        match jdiv (D * A_PRECISION) Ann with
        | .error e => .error e
        | .ok bd => getYLoop (S + bd) c D MAX_ITERATIONS D

/-- `stableswap-exact.ts` `dynamicFee(xpi, xpj, fee, feeMultiplier)`, with
its `xps2 = 0` guard. -/
def dynamicFee (xpi xpj fee feeMultiplier : Int) : Except Err Int :=
  if feeMultiplier ≤ FEE_DENOMINATOR then .ok fee
  else
    let xps2 := (xpi + xpj) ^ 2
    if xps2 = 0 then .ok fee
    else
      jdiv (feeMultiplier * fee)
        (jsDiv ((feeMultiplier - FEE_DENOMINATOR) * 4 * xpi * xpj) xps2 + FEE_DENOMINATOR)

/-- `stableswap-exact.ts` `getDyExact(i, j, dx, params)`, step for step:
validation returning `0`, `xp`, `amp`, `D`, `x`, `y`, `dy = xp[j] - y - 1`
(return `0` if non-positive), the dynamic fee at the averaged balances, and
the final conversion with clamping. -/
def getDyExact (i j : Int) (dx : Int) (p : ExactPoolParams) : Except Err Int :=
  let nCoins := p.balances.length
  if i = j then .ok 0
  else if i < 0 ∨ (nCoins : Int) ≤ i ∨ j < 0 ∨ (nCoins : Int) ≤ j then .ok 0
  else if dx = 0 then .ok 0
  else if List.getD p.rates i.toNat 0 = 0 ∨ List.getD p.rates j.toNat 0 = 0 then .ok 0
  else
    match getXp p.balances p.rates with
    | .error e => .error e
    | .ok xp =>
      let amp := p.A * A_PRECISION
      match getD xp amp nCoins with
      | .error e => .error e
      | .ok D =>
        let x := List.getD xp i.toNat 0 + jsDiv (dx * List.getD p.rates i.toNat 0) PRECISION
        match getY i j x xp amp D nCoins with
        | .error e => .error e
        | .ok y =>
          let dy := List.getD xp j.toNat 0 - y - 1
          if dy ≤ 0 then .ok 0
          else
            match dynamicFee (jsDiv (List.getD xp i.toNat 0 + x) 2)
                (jsDiv (List.getD xp j.toNat 0 + y) 2) p.fee p.offpegFeeMultiplier with
            | .error e => .error e
            | .ok dynFee =>
              let feeAmount := jsDiv (dynFee * dy) FEE_DENOMINATOR
              let result := jsDiv ((dy - feeAmount) * PRECISION) (List.getD p.rates j.toNat 0)
              .ok (if result > 0 then result else 0)


/-- The specification's step list for `getDyExact` (section 4.2.4), written
from the spec's words: `xp` from rates and balances, `amp = A ·
A_PRECISION`, `D`, the post-swap input-side balance `x`, the solved
output-side balance `y`, `dy_raw = xp[j] - y - 1` (return `0` if
non-positive), the dynamic fee at the averages of pre- and post-swap
balances, `dy = (dy_raw - fee * dy_raw / FEE_DENOMINATOR) * PRECISION /
rates[j]`, clamped to `0` if non-positive.  No validation appears in the
spec's list: the claim quantifies over valid snapshots only. -/
def getDyExactSpec (i j : Int) (dx : Int) (p : ExactPoolParams) : Except Err Int :=
  match getXp p.balances p.rates with
  | .error e => .error e
  | .ok xp =>
    let amp := p.A * A_PRECISION
    match getD xp amp p.balances.length with
    | .error e => .error e
    | .ok D =>
      let x := List.getD xp i.toNat 0 + jsDiv (dx * List.getD p.rates i.toNat 0) PRECISION
      match getY i j x xp amp D p.balances.length with
      | .error e => .error e
      | .ok y =>
        let dyRaw := List.getD xp j.toNat 0 - y - 1
        if dyRaw ≤ 0 then .ok 0
        else
          match dynamicFee (jsDiv (List.getD xp i.toNat 0 + x) 2)
              (jsDiv (List.getD xp j.toNat 0 + y) 2) p.fee p.offpegFeeMultiplier with
          | .error e => .error e
          | .ok fee =>
            let dy := jsDiv ((dyRaw - jsDiv (fee * dyRaw) FEE_DENOMINATOR) * PRECISION)
              (List.getD p.rates j.toNat 0)
            .ok (if dy > 0 then dy else 0)

end SSX

namespace SSX

/-- The exponential-expansion loop of `getDxExact`: up to 10 doublings of
`high` while `getDyExact` at `high` is still below the target `dy`. -/
def dxExpand (i j : Int) (dy : Int) (p : ExactPoolParams) :
    Nat → Int → Except Err Int
  | 0, high => .ok high
  | k + 1, high =>
    match getDyExact i j high p with
    | .error e => .error e
    | .ok dyAtHigh =>
      if dyAtHigh ≥ dy then .ok high
      else dxExpand i j dy p k (high * 2)

/-- The 256-round binary search of `getDxExact`; returns `high` when the
interval has collapsed (`mid = low`) or the round budget is spent. -/
def dxSearch (i j : Int) (dy : Int) (p : ExactPoolParams) :
    Nat → Int → Int → Except Err Int
  | 0, _, high => .ok high
  | k + 1, low, high =>
    let mid := jsDiv (low + high) 2
    if mid = low then .ok high
    else
      match getDyExact i j mid p with
      | .error e => .error e
      | .ok dyMid =>
        if dyMid < dy then dxSearch i j dy p k mid high
        else dxSearch i j dy p k low mid

/-- `stableswap-exact.ts` `getDxExact(i, j, dy, params)`: validation
returning `0`, initial upper bound `10 * max(balances)`, up to 10
doublings, the final reachability check (`0` if `dy` is unreachable), and
the 256-round binary search. -/
def getDxExact (i j : Int) (dy : Int) (p : ExactPoolParams) : Except Err Int :=
  let nCoins := p.balances.length
  if i = j then .ok 0
  else if i < 0 ∨ (nCoins : Int) ≤ i ∨ j < 0 ∨ (nCoins : Int) ≤ j then .ok 0
  else if dy = 0 then .ok 0
  else if List.getD p.rates i.toNat 0 = 0 ∨ List.getD p.rates j.toNat 0 = 0 then .ok 0
  else
    let maxBalance := p.balances.foldl (fun a b => if a > b then a else b) 0
    match dxExpand i j dy p 10 (maxBalance * 10) with
    | .error e => .error e
    | .ok high =>
      match getDyExact i j high p with
      | .error e => .error e
      | .ok dyAtFinalHigh =>
        if dyAtFinalHigh < dy then .ok 0
        else dxSearch i j dy p 256 0 high

/-- One Newton update of the exact `getD` loop, factored out so that
convergence of a returned value can be stated. -/
def dStep (xp : List Int) (S Ann N nPow : Int) (D : Int) : Except Err Int :=
  match SS.dpFold D xp D with
  | .error e => .error e
  | .ok dp0 =>
    let D_P := jsDiv dp0 nPow
    let numerator := (jsDiv (Ann * S) A_PRECISION + D_P * N) * D
    let denominator := jsDiv ((Ann - A_PRECISION) * D) A_PRECISION + (N + 1) * D_P
    jdiv numerator denominator

end SSX

namespace CS

/-!
## `cryptoswap.ts` — hardened CryptoSwap (Twocrypto / Tricrypto)
-/

/-- Pool parameters for the 2-coin pool (`TwocryptoParams`).  The optional
`precisions` of the TypeScript interface is an `Option`; `?? [1n, 1n]`
becomes `Option.getD · (1, 1)`. -/
structure TwocryptoParams where
  A : Int
  gamma : Int
  D : Int
  midFee : Int
  outFee : Int
  feeGamma : Int
  priceScale : Int
  balances : Int × Int
  precisions : Option (Int × Int)

/-- Pool parameters for the 3-coin pool (`TricryptoParams`). -/
structure TricryptoParams where
  A : Int
  gamma : Int
  D : Int
  midFee : Int
  outFee : Int
  feeGamma : Int
  priceScales : Int × Int
  balances : Int × Int × Int
  precisions : Option (Int × Int × Int)

/-- `K0 = K0_i * y * N / D` of the hardened `newtonY` loop. -/
def nyK0 (N D K0_i y0 : Int) : Int := jsDiv (K0_i * y0 * N) D

/-- `_g1k0 = |gamma + 10^18 - K0| + 1` of the hardened `newtonY` loop. -/
def nyG1k0 (gamma K0 : Int) : Int :=
  if gamma + PRECISION > K0 then gamma + PRECISION - K0 + 1
  else K0 - (gamma + PRECISION) + 1

/-- `mul1` of the hardened `newtonY` loop. -/
def nyMul1 (A gamma g1k0 D : Int) : Int :=
  jsDiv (jsDiv (jsDiv (PRECISION * D) gamma * g1k0) gamma * g1k0 * A_MULTIPLIER) A

/-- `mul2` of the hardened `newtonY` loop. -/
def nyMul2 (K0 g1k0 : Int) : Int := PRECISION + jsDiv (2 * PRECISION * K0) g1k0

/-- The "halve the estimate, floored at 1" fallback of the hardened
`newtonY` loop. -/
def nyHalve (y0 : Int) : Int := if jsDiv y0 2 = 0 then 1 else jsDiv y0 2

/-- `yfprime` of the hardened `newtonY` loop before `_dyfprime` is
subtracted: `10^18 * y + S * mul2 + mul1`. -/
def nyYfprimeBase (N A gamma sOthers D K0_i y0 : Int) : Int :=
  PRECISION * y0 +
    (sOthers + y0) * nyMul2 (nyK0 N D K0_i y0) (nyG1k0 gamma (nyK0 N D K0_i y0)) +
    nyMul1 A gamma (nyG1k0 gamma (nyK0 N D K0_i y0)) D

/-- `_dyfprime = D * mul2` of the hardened `newtonY` loop. -/
def nyDyfprime (N gamma D K0_i y0 : Int) : Int :=
  D * nyMul2 (nyK0 N D K0_i y0) (nyG1k0 gamma (nyK0 N D K0_i y0))

/-- `fprime = yfprime / y` of the hardened `newtonY` loop. -/
def nyFprime (N A gamma sOthers D K0_i y0 : Int) : Int :=
  jsDiv (nyYfprimeBase N A gamma sOthers D K0_i y0 - nyDyfprime N gamma D K0_i y0) y0

/-- The next iterate of the hardened `newtonY` loop in the non-halving,
non-throwing branch: `y_plus - y_minus`, falling back to halving when
`y_plus < y_minus` and flooring a zero difference at `1`. -/
def nyY1 (N A gamma sOthers D K0_i y0 : Int) : Int :=
  let K0 := nyK0 N D K0_i y0
  let mul1 := nyMul1 A gamma (nyG1k0 gamma K0) D
  let fprime := nyFprime N A gamma sOthers D K0_i y0
  let yfprime := nyYfprimeBase N A gamma sOthers D K0_i y0 - nyDyfprime N gamma D K0_i y0
  let yMinusBase := jsDiv mul1 fprime
  let yPlus := jsDiv (yfprime + PRECISION * D) fprime + jsDiv (yMinusBase * PRECISION) K0
  let yMinus := yMinusBase + jsDiv (PRECISION * (sOthers + y0)) fprime
  if yPlus < yMinus then nyHalve y0
  else if yPlus - yMinus = 0 then 1 else yPlus - yMinus

/-- One iteration of the hardened `newtonY` loop, factored out to state what
a returned value satisfies: `.ok (.inl y1)` means "continue with `y1`",
`.ok (.inr y1)` means "converged, return `y1`". -/
def nyStep (N A gamma sOthers D K0_i climit : Int) (y0 : Int) :
    Except Err (Int ⊕ Int) :=
  if nyYfprimeBase N A gamma sOthers D K0_i y0 < nyDyfprime N gamma D K0_i y0 then
    .ok (.inl (nyHalve y0))
  else if y0 = 0 then .error .yZero
  else if nyFprime N A gamma sOthers D K0_i y0 = 0 then .error .fprimeZero
  else if nyK0 N D K0_i y0 = 0 then .error .k0Zero
  else
    let y1 := nyY1 N A gamma sOthers D K0_i y0
    let diff := if y1 > y0 then y1 - y0 else y0 - y1
    let threshold := jsDiv y1 CONVERGENCE_THRESHOLD
    if diff < (if climit > threshold then climit else threshold) then .ok (.inr y1)
    else .ok (.inl y1)

/-- The Newton loop shared by `newtonY` (N = 2) and `newtonY3` (N = 3) of
the hardened variant: one `nyStep` per iteration (`sOthers` is the sum of
the non-`i` balances; halving floors the estimate at `1`; the zero-divisor
guards throw their dedicated errors), and exhausting the 255-iteration
budget is `NO_CONVERGE`. -/
def nyLoop (N A gamma sOthers D K0_i climit : Int) : Nat → Int → Except Err Int
  | 0, _ => .error .noConverge
  | fuel + 1, y0 =>
    match nyStep N A gamma sOthers D K0_i climit y0 with
    | .error e => .error e
    | .ok (.inr y) => .ok y
    | .ok (.inl y) => nyLoop N A gamma sOthers D K0_i climit fuel y

/-- `cryptoswap.ts` `newtonY(A, gamma, x, D, i)` (hardened variant), with
its guard chain: index bounds, `A = 0`, `gamma = 0`, zero other-balance,
`D = 0`, and zero initial estimate.  (The TypeScript `x.length !== 2` check
cannot fail for the pair type used here.) -/
def newtonY (A gamma : Int) (x : Int × Int) (D : Int) (i : Int) : Except Err Int :=
  if i < 0 ∨ 1 < i then .error .invalidIndex
  else if A = 0 then .error .invalidA
  else if gamma = 0 then .error .invalidGamma
  else
    let xj := if i = 0 then x.2 else x.1
    if xj = 0 then .error .zeroBalance
    else if D = 0 then .error .zeroD
    else
      let y := jsDiv (D * D) (xj * 2 * 2)
      if y = 0 then .error .yZero
      else
        let K0_i := jsDiv (PRECISION * 2 * xj) D
        let a := jsDiv xj CONVERGENCE_THRESHOLD
        let b := jsDiv D CONVERGENCE_THRESHOLD
        let m := if a > b then a else b
        let climit := if m < MIN_CONVERGENCE then MIN_CONVERGENCE else m
        nyLoop 2 A gamma xj D K0_i climit MAX_ITERATIONS y

/-- `cryptoswap.ts` `newtonY3(A, gamma, x, D, i)` (hardened variant). -/
def newtonY3 (A gamma : Int) (x : Int × Int × Int) (D : Int) (i : Int) : Except Err Int :=
  if i < 0 ∨ 2 < i then .error .invalidIndex
  else if A = 0 then .error .invalidA
  else if gamma = 0 then .error .invalidGamma
  else if D = 0 then .error .zeroD
  else
    let xa := if i = 0 then x.2.1 else x.1
    let xb := if i = 2 then x.2.1 else x.2.2
    if xa = 0 ∨ xb = 0 then .error .zeroBalance
    else
      let S := xa + xb
      let prod := jsDiv (jsDiv (PRECISION * xa) PRECISION * xb) PRECISION
      let dSquaredScaled := jsDiv (D * D) PRECISION
      if dSquaredScaled = 0 then .error .insufficientLiquidity
      else if prod = 0 then .error .prodZero
      else
        let y := jsDiv (jsDiv (D * D) prod * D) (27 * PRECISION)
        let K0_i := jsDiv (PRECISION * 9 * prod) dSquaredScaled
        let va := jsDiv xa CONVERGENCE_THRESHOLD
        let vb := jsDiv xb CONVERGENCE_THRESHOLD
        let m0 := jsDiv D CONVERGENCE_THRESHOLD
        let m1 := if va > m0 then va else m0
        let m2 := if vb > m1 then vb else m1
        let climit := if m2 < MIN_CONVERGENCE then MIN_CONVERGENCE else m2
        nyLoop 3 A gamma S D K0_i climit MAX_ITERATIONS y

/-- Inner fold of `calcD`: `for (const x of xp) { K0 = (K0 * x) / D; }`.
`D` changes between iterations of the outer loop and can in principle be
`0`, so the division is the checked one. -/
def kFold (D : Int) : List Int → Int → Except Err Int
  | [], acc => .ok acc
  | x :: xs, acc =>
    match jdiv (acc * x) D with
    | .error e => .error e
    | .ok acc' => kFold D xs acc'

/-- The 255-iteration loop of `calcD`, with the relative convergence test
`diff * CONVERGENCE_THRESHOLD < D`. -/
def calcDLoop (A gamma : Int) (xp : List Int) (S N nPow : Int) :
    Nat → Int → Except Err Int
  | 0, _ => .error .noConverge
  | fuel + 1, D =>
    match kFold D xp (nPow * PRECISION) with
    | .error e => .error e
    | .ok K0 =>
      let gp := gamma + PRECISION
      let g1k0 := if gp > K0 then gp - K0 + 1 else K0 - gp + 1
      let mul1 := jsDiv (jsDiv (jsDiv (PRECISION * D) gamma * g1k0) gamma * g1k0 * A_MULTIPLIER) A
      let mul2 := jsDiv (2 * PRECISION * K0) g1k0
      match jdiv (mul1 * N) D with
      | .error e => .error e
      | .ok m1N =>
        let negFprime := S + jsDiv (S * mul2) PRECISION + m1N - (PRECISION + mul2) * N
        if negFprime = 0 then .error .fprimeZero
        else
          let dPlus := jsDiv (D * (negFprime + S)) negFprime
          let dMinus := jsDiv (D * D) negFprime
          let Dnew := if dPlus > dMinus then dPlus - dMinus else jsDiv (dMinus - dPlus) 2
          let diff := if Dnew > D then Dnew - D else D - Dnew
          if diff * CONVERGENCE_THRESHOLD < Dnew then .ok Dnew
          else calcDLoop A gamma xp S N nPow fuel Dnew

/-- `cryptoswap.ts` `calcD(A, gamma, xp)` (hardened variant). -/
def calcD (A gamma : Int) (xp : List Int) : Except Err Int :=
  if A = 0 then .error .invalidA
  else if gamma = 0 then .error .invalidGamma
  else if xp.length < 2 then .error .invalidParam
  else
    let S := xp.foldl (· + ·) 0
    if S = 0 then .ok 0
    else if xp.any (· == 0) then .error .zeroBalance
    else
      let N : Int := xp.length
      calcDLoop A gamma xp S N (N ^ xp.length) MAX_ITERATIONS S

/-- `cryptoswap.ts` N-coin `dynamicFee(xp, feeGamma, midFee, outFee)`
(hardened variant, with the non-positive-denominator short-circuit to
`outFee`).  All divisors on every path are non-zero, so the function is
total. -/
def dynamicFee (xp : List Int) (feeGamma midFee outFee : Int) : Int :=
  let N : Int := xp.length
  let nPow := N ^ xp.length
  let sum := xp.foldl (· + ·) 0
  if sum = 0 then midFee
  else
    let K := xp.foldl (fun K x => jsDiv (K * x) sum) (PRECISION * nPow)
    let denominator := feeGamma + PRECISION - K
    if denominator ≤ 0 then outFee
    else
      let f := jsDiv (feeGamma * PRECISION) denominator
      jsDiv (midFee * f + outFee * (PRECISION - f)) PRECISION

/-- `cryptoswap.ts` `scaleBalances(balances, precisions, priceScale)`. -/
def scaleBalances (balances precisions : Int × Int) (priceScale : Int) : Int × Int :=
  (balances.1 * precisions.1, jsDiv (balances.2 * precisions.2 * priceScale) PRECISION)

/-- `cryptoswap.ts` `scaleBalances3(balances, precisions, priceScales)`. -/
def scaleBalances3 (balances precisions : Int × Int × Int) (priceScales : Int × Int) :
    Int × Int × Int :=
  (balances.1 * precisions.1,
   jsDiv (balances.2.1 * precisions.2.1 * priceScales.1) PRECISION,
   jsDiv (balances.2.2 * precisions.2.2 * priceScales.2) PRECISION)

/-- `cryptoswap.ts` `unscaleOutput2(dy, j, precisions, priceScale)`, with its
zero-precision / zero-price-scale guards returning `0`. -/
def unscaleOutput2 (dy : Int) (j : Int) (precisions : Int × Int) (priceScale : Int) : Int :=
  let pj := if j = 0 then precisions.1 else precisions.2
  if pj = 0 then 0
  else if j = 0 then jsDiv dy precisions.1
  else if priceScale = 0 then 0
  else jsDiv (dy * PRECISION) (precisions.2 * priceScale)

/-- `cryptoswap.ts` `unscaleOutput3(dy, j, precisions, priceScales)`. -/
def unscaleOutput3 (dy : Int) (j : Int) (precisions : Int × Int × Int)
    (priceScales : Int × Int) : Int :=
  let pj := if j = 0 then precisions.1 else if j = 1 then precisions.2.1 else precisions.2.2
  if pj = 0 then 0
  else if j = 0 then jsDiv dy precisions.1
  else if j = 1 then
    if priceScales.1 = 0 then 0
    else jsDiv (dy * PRECISION) (precisions.2.1 * priceScales.1)
  else
    if priceScales.2 = 0 then 0
    else jsDiv (dy * PRECISION) (precisions.2.2 * priceScales.2)

end CS

namespace CS

/-- `cryptoswap.ts` `getDy(params, i, j, dx)` (hardened Twocrypto swap):
invalid indices and `dx = 0` return `0` silently; `dx` is added to the raw
balance before scaling; the dynamic fee is computed on `xp` with slot `j`
replaced by the solver result; every exit clamps at `0`. -/
def getDy (p : TwocryptoParams) (i j : Int) (dx : Int) : Except Err Int :=
  if i = j then .ok 0
  else if i < 0 ∨ 1 < i ∨ j < 0 ∨ 1 < j then .ok 0
  else if dx = 0 then .ok 0
  else
    let precisions := p.precisions.getD (1, 1)
    let newBalances := if i = 0 then (p.balances.1 + dx, p.balances.2)
                       else (p.balances.1, p.balances.2 + dx)
    let xp := scaleBalances newBalances precisions p.priceScale
    match newtonY p.A p.gamma xp p.D j with
    | .error e => .error e
    | .ok y =>
      let xpj := if j = 0 then xp.1 else xp.2
      let dy := xpj - y - 1
      if dy < 0 then .ok 0
      else
        let xpAfter := if j = 0 then (y, xp.2) else (xp.1, y)
        let fee := dynamicFee [xpAfter.1, xpAfter.2] p.feeGamma p.midFee p.outFee
        let dy2 := dy - jsDiv (dy * fee) FEE_DENOMINATOR
        if dy2 ≤ 0 then .ok 0
        else
          let dy3 := unscaleOutput2 dy2 j precisions p.priceScale
          .ok (if dy3 > 0 then dy3 else 0)

/-- `cryptoswap.ts` `getDy3(params, i, j, dx)` (hardened Tricrypto swap). -/
def getDy3 (p : TricryptoParams) (i j : Int) (dx : Int) : Except Err Int :=
  if i = j then .ok 0
  else if i < 0 ∨ 2 < i ∨ j < 0 ∨ 2 < j then .ok 0
  else if dx = 0 then .ok 0
  else
    let precisions := p.precisions.getD (1, 1, 1)
    let newBalances :=
      if i = 0 then (p.balances.1 + dx, p.balances.2.1, p.balances.2.2)
      else if i = 1 then (p.balances.1, p.balances.2.1 + dx, p.balances.2.2)
      else (p.balances.1, p.balances.2.1, p.balances.2.2 + dx)
    let xp := scaleBalances3 newBalances precisions p.priceScales
    match newtonY3 p.A p.gamma xp p.D j with
    | .error e => .error e
    | .ok y =>
      let xpj := if j = 0 then xp.1 else if j = 1 then xp.2.1 else xp.2.2
      let dy := xpj - y - 1
      if dy < 0 then .ok 0
      else
        let xpAfter :=
          if j = 0 then (y, xp.2.1, xp.2.2)
          else if j = 1 then (xp.1, y, xp.2.2)
          else (xp.1, xp.2.1, y)
        let fee := dynamicFee [xpAfter.1, xpAfter.2.1, xpAfter.2.2] p.feeGamma p.midFee p.outFee
        let dy2 := dy - jsDiv (dy * fee) FEE_DENOMINATOR
        if dy2 ≤ 0 then .ok 0
        else
          let dy3 := unscaleOutput3 dy2 j precisions p.priceScales
          .ok (if dy3 > 0 then dy3 else 0)

/-- `cryptoswap.ts` `getSpotPrice(params, i, j)`: first derivative via a
precision-scaled epsilon input. -/
def getSpotPrice (p : TwocryptoParams) (i j : Int) : Except Err Int :=
  if i = j then .ok 0
  else if i < 0 ∨ 1 < i ∨ j < 0 ∨ 1 < j then .ok 0
  else
    let precisions := p.precisions.getD (1, 1)
    let pi := if i = 0 then precisions.1 else precisions.2
    if pi = 0 then .ok 0
    else
      let dx := jsDiv DERIVATIVE_EPSILON pi
      let safeDx := if dx > 0 then dx else 1
      match getDy p i j safeDx with
      | .error e => .error e
      | .ok dy =>
        if safeDx = 0 then .ok 0
        else .ok (jsDiv (dy * PRECISION) safeDx)

/-- `cryptoswap.ts` `getSpotPrice3(params, i, j)`. -/
def getSpotPrice3 (p : TricryptoParams) (i j : Int) : Except Err Int :=
  if i = j then .ok 0
  else if i < 0 ∨ 2 < i ∨ j < 0 ∨ 2 < j then .ok 0
  else
    let precisions := p.precisions.getD (1, 1, 1)
    let pi := if i = 0 then precisions.1 else if i = 1 then precisions.2.1 else precisions.2.2
    if pi = 0 then .ok 0
    else
      let dx := jsDiv DERIVATIVE_EPSILON pi
      let safeDx := if dx > 0 then dx else 1
      match getDy3 p i j safeDx with
      | .error e => .error e
      | .ok dy =>
        if safeDx = 0 then .ok 0
        else .ok (jsDiv (dy * PRECISION) safeDx)

/-- `cryptoswap.ts` `getEffectivePrice(params, i, j, dx)`: a zero `dx` is
answered with the spot price, any other `dx` with `dy * PRECISION / dx`. -/
def getEffectivePrice (p : TwocryptoParams) (i j : Int) (dx : Int) : Except Err Int :=
  if dx = 0 then getSpotPrice p i j
  else
    match getDy p i j dx with
    | .error e => .error e
    | .ok dy => .ok (jsDiv (dy * PRECISION) dx)

/-- `cryptoswap.ts` `getEffectivePrice3(params, i, j, dx)`. -/
def getEffectivePrice3 (p : TricryptoParams) (i j : Int) (dx : Int) : Except Err Int :=
  if dx = 0 then getSpotPrice3 p i j
  else
    match getDy3 p i j dx with
    | .error e => .error e
    | .ok dy => .ok (jsDiv (dy * PRECISION) dx)

/-- `cryptoswap.ts` `getAGammaAtTime(...)`: ramp interpolation with the
`futureTime > initialTime` requirement. -/
def getAGammaAtTime (initialA futureA initialGamma futureGamma initialTime futureTime
    currentTime : Int) : Except Err (Int × Int) :=
  if futureTime ≤ initialTime then .error .invalidRamp
  else if currentTime ≥ futureTime then .ok (futureA, futureGamma)
  else if currentTime ≤ initialTime then .ok (initialA, initialGamma)
  else
    let elapsed := currentTime - initialTime
    let duration := futureTime - initialTime
    let currentA :=
      if initialA > futureA then initialA - jsDiv ((initialA - futureA) * elapsed) duration
      else initialA + jsDiv ((futureA - initialA) * elapsed) duration
    let currentGamma :=
      if initialGamma > futureGamma then
        initialGamma - jsDiv ((initialGamma - futureGamma) * elapsed) duration
      else initialGamma + jsDiv ((futureGamma - initialGamma) * elapsed) duration
    .ok (currentA, currentGamma)

/-- `cryptoswap.ts` `calcWithdrawOneCoin(params, tokenAmount, i, totalSupply)`
with its guard chain: invalid index returns `0`, `totalSupply = 0` and
`tokenAmount > totalSupply` throw, `tokenAmount = 0` returns `0`, a full
withdrawal short-circuits to the raw balance. -/
def calcWithdrawOneCoin (p : TwocryptoParams) (tokenAmount : Int) (i : Int)
    (totalSupply : Int) : Except Err Int :=
  if i < 0 ∨ 1 < i then .ok 0
  else if totalSupply = 0 then .error .supplyZero
  else if tokenAmount = 0 then .ok 0
  else if tokenAmount > totalSupply then .error .exceedsSupply
  else
    let precisions := p.precisions.getD (1, 1)
    if tokenAmount = totalSupply then .ok (if i = 0 then p.balances.1 else p.balances.2)
    else
      let xp := scaleBalances p.balances precisions p.priceScale
      match calcD p.A p.gamma [xp.1, xp.2] with
      | .error e => .error e
      | .ok D0 =>
        let D1 := D0 - jsDiv (tokenAmount * D0) totalSupply
        match newtonY p.A p.gamma xp D1 i with
        | .error e => .error e
        | .ok newY =>
          let xpi := if i = 0 then xp.1 else xp.2
          let dy := xpi - newY
          if dy < 0 then .ok 0
          else
            let fee := dynamicFee [xp.1, xp.2] p.feeGamma p.midFee p.outFee
            let dy2 := dy - jsDiv (dy * fee) FEE_DENOMINATOR
            if dy2 ≤ 0 then .ok 0
            else
              let dy3 := unscaleOutput2 dy2 i precisions p.priceScale
              .ok (if dy3 > 0 then dy3 else 0)

/-- `cryptoswap.ts` `calcWithdrawOneCoin3(params, tokenAmount, i, totalSupply)`. -/
def calcWithdrawOneCoin3 (p : TricryptoParams) (tokenAmount : Int) (i : Int)
    (totalSupply : Int) : Except Err Int :=
  if i < 0 ∨ 2 < i then .ok 0
  else if totalSupply = 0 then .error .supplyZero
  else if tokenAmount = 0 then .ok 0
  else if tokenAmount > totalSupply then .error .exceedsSupply
  else
    let precisions := p.precisions.getD (1, 1, 1)
    if tokenAmount = totalSupply then
      .ok (if i = 0 then p.balances.1 else if i = 1 then p.balances.2.1 else p.balances.2.2)
    else
      let xp := scaleBalances3 p.balances precisions p.priceScales
      match calcD p.A p.gamma [xp.1, xp.2.1, xp.2.2] with
      | .error e => .error e
      | .ok D0 =>
        let D1 := D0 - jsDiv (tokenAmount * D0) totalSupply
        match newtonY3 p.A p.gamma xp D1 i with
        | .error e => .error e
        | .ok newY =>
          let xpi := if i = 0 then xp.1 else if i = 1 then xp.2.1 else xp.2.2
          let dy := xpi - newY
          if dy < 0 then .ok 0
          else
            let fee := dynamicFee [xp.1, xp.2.1, xp.2.2] p.feeGamma p.midFee p.outFee
            let dy2 := dy - jsDiv (dy * fee) FEE_DENOMINATOR
            if dy2 ≤ 0 then .ok 0
            else
              let dy3 := unscaleOutput3 dy2 i precisions p.priceScales
              .ok (if dy3 > 0 then dy3 else 0)

/-- `cryptoswap.ts` `calcRemoveLiquidity(params, tokenAmount, totalSupply)`:
strictly proportional removal; a zero supply returns zeros, over-withdrawal
throws. -/
def calcRemoveLiquidity (p : TwocryptoParams) (tokenAmount totalSupply : Int) :
    Except Err (Int × Int) :=
  if totalSupply = 0 then .ok (0, 0)
  else if tokenAmount > totalSupply then .error .exceedsSupply
  else .ok (jsDiv (p.balances.1 * tokenAmount) totalSupply,
            jsDiv (p.balances.2 * tokenAmount) totalSupply)

/-- `cryptoswap.ts` `calcRemoveLiquidity3(params, tokenAmount, totalSupply)`. -/
def calcRemoveLiquidity3 (p : TricryptoParams) (tokenAmount totalSupply : Int) :
    Except Err (Int × Int × Int) :=
  if totalSupply = 0 then .ok (0, 0, 0)
  else if tokenAmount > totalSupply then .error .exceedsSupply
  else .ok (jsDiv (p.balances.1 * tokenAmount) totalSupply,
            jsDiv (p.balances.2.1 * tokenAmount) totalSupply,
            jsDiv (p.balances.2.2 * tokenAmount) totalSupply)

/-- `cryptoswap.ts` `validateSlippageBps(slippageBps)` + `calculateMinDy`:
rejects `bps ∉ [0, 10000]` with `INVALID_SLIPPAGE`, otherwise
`expectedOutput * (10000 - bps) / 10000`. -/
def calculateMinDy (expectedOutput slippageBps : Int) : Except Err Int :=
  if slippageBps < 0 ∨ slippageBps > 10000 then .error .invalidSlippage
  else .ok (jsDiv (expectedOutput * (10000 - slippageBps)) BPS_DENOMINATOR)

/-- `cryptoswap.ts` `calculateMaxDx`: rejects `bps ∉ [0, 10000]`, otherwise
`expectedInput * (10000 + bps) / 10000`. -/
def calculateMaxDx (expectedInput slippageBps : Int) : Except Err Int :=
  if slippageBps < 0 ∨ slippageBps > 10000 then .error .invalidSlippage
  else .ok (jsDiv (expectedInput * (10000 + slippageBps)) BPS_DENOMINATOR)

end CS

namespace CSOld

/-!
## The earlier CryptoSwap variant's `newtonY`

Identical iteration formulas to `CS.newtonY`, but: no input validation, no
flooring of the halved estimate at `1`, every division is unguarded (so a
zero divisor is JavaScript's `RangeError`, modelled by `jdiv`), and — the
decisive difference — after the 255-iteration loop the function falls
through to `return y` instead of throwing. -/

/-- The 2-coin Newton loop of the earlier variant; fuel `0` returns the
current iterate (`return y` after the loop). -/
def nyLoop (A gamma x_j D K0_i climit : Int) : Nat → Int → Except Err Int
  | 0, y0 => .ok y0
  | fuel + 1, y0 =>
    match jdiv (K0_i * y0 * 2) D with
    | .error e => .error e
    | .ok K0 =>
      let S := x_j + y0
      let gp := gamma + PRECISION
      let g1k0 := if gp > K0 then gp - K0 + 1 else K0 - gp + 1
      match jdiv (PRECISION * D) gamma with
      | .error e => .error e
      | .ok m1a =>
        match jdiv (m1a * g1k0) gamma with
        | .error e => .error e
        | .ok m1b =>
          match jdiv (m1b * g1k0 * A_MULTIPLIER) A with
          | .error e => .error e
          | .ok mul1 =>
            match jdiv (2 * PRECISION * K0) g1k0 with
            | .error e => .error e
            | .ok m2 =>
              let mul2 := PRECISION + m2
              let yfprimeBase := PRECISION * y0 + S * mul2 + mul1
              let dyfprime := D * mul2
              if yfprimeBase < dyfprime then
                nyLoop A gamma x_j D K0_i climit fuel (jsDiv y0 2)
              else
                let yfprime := yfprimeBase - dyfprime
                match jdiv yfprime y0 with
                | .error e => .error e
                | .ok fprime =>
                  match jdiv mul1 fprime with
                  | .error e => .error e
                  | .ok yMinusBase =>
                    match jdiv (yfprime + PRECISION * D) fprime with
                    | .error e => .error e
                    | .ok yp1 =>
                      match jdiv (yMinusBase * PRECISION) K0 with
                      | .error e => .error e
                      | .ok yp2 =>
                        match jdiv (PRECISION * S) fprime with
                        | .error e => .error e
                        | .ok ym2 =>
                          let yPlus := yp1 + yp2
                          let yMinus := yMinusBase + ym2
                          let y1 := if yPlus < yMinus then jsDiv y0 2 else yPlus - yMinus
                          let diff := if y1 > y0 then y1 - y0 else y0 - y1
                          let threshold := jsDiv y1 CONVERGENCE_THRESHOLD
                          if diff < (if climit > threshold then climit else threshold) then .ok y1
                          else nyLoop A gamma x_j D K0_i climit fuel y1

/-- `newtonY(A, gamma, x, D, i)` of the earlier variant: no guards at all. -/
def newtonY (A gamma : Int) (x : Int × Int) (D : Int) (i : Int) : Except Err Int :=
  let x_j := if i = 0 then x.2 else x.1
  match jdiv (D * D) (x_j * 2 * 2) with
  | .error e => .error e
  | .ok y =>
    match jdiv (PRECISION * 2 * x_j) D with
    | .error e => .error e
    | .ok K0_i =>
      let a := jsDiv x_j CONVERGENCE_THRESHOLD
      let b := jsDiv D CONVERGENCE_THRESHOLD
      let m := if a > b then a else b
      let climit := if m < MIN_CONVERGENCE then MIN_CONVERGENCE else m
      nyLoop A gamma x_j D K0_i climit MAX_ITERATIONS y

end CSOld

namespace CSOld

end CSOld

/-!
## Claims
-/

/-- C9: For every CryptoSwap snapshot and indices, calling `getEffectivePrice`
(2-coin) or `getEffectivePrice3` (3-coin) with `dx = 0` returns exactly the
corresponding spot price `getSpotPrice` / `getSpotPrice3` — the `dx = 0`
branch short-circuits before the division `dy * PRECISION / dx` is ever
attempted, and the two sides are equal as computations (including any error
the spot price itself may produce). -/
theorem c9_effective_price_zero_dx_is_spot :
    (∀ (p : CS.TwocryptoParams) (i j : Int),
        CS.getEffectivePrice p i j 0 = CS.getSpotPrice p i j) ∧
    (∀ (p : CS.TricryptoParams) (i j : Int),
        CS.getEffectivePrice3 p i j 0 = CS.getSpotPrice3 p i j) := by
  constructor
  · intro p i j
    simp [CS.getEffectivePrice]
  · intro p i j
    simp [CS.getEffectivePrice3]

/-- C7: `getAGammaAtTime` fails with `INVALID_RAMP` whenever
`futureTime ≤ initialTime`; otherwise it returns the initial pair at or
before `initialTime`, the future pair at or after `futureTime`, and the
truncating piecewise-linear interpolation
`v₀ + (v₁ - v₀)·(t - t₀) tdiv (t₁ - t₀)` strictly in between; in
particular `getAGammaAtTime(100, 200, 1000, 2000, 1000, 2000, 1500) =
(150, 1500)`. -/
theorem c7_ramp_interpolation :
    (∀ a0 a1 g0 g1 t0 t1 t : Int, t1 ≤ t0 →
        CS.getAGammaAtTime a0 a1 g0 g1 t0 t1 t = .error .invalidRamp) ∧
    (∀ a0 a1 g0 g1 t0 t1 t : Int, t0 < t1 → t ≤ t0 →
        CS.getAGammaAtTime a0 a1 g0 g1 t0 t1 t = .ok (a0, g0)) ∧
    (∀ a0 a1 g0 g1 t0 t1 t : Int, t0 < t1 → t1 ≤ t →
        CS.getAGammaAtTime a0 a1 g0 g1 t0 t1 t = .ok (a1, g1)) ∧
    (∀ a0 a1 g0 g1 t0 t1 t : Int, t0 < t → t < t1 →
        CS.getAGammaAtTime a0 a1 g0 g1 t0 t1 t =
          .ok (a0 + ((a1 - a0) * (t - t0)).tdiv (t1 - t0),
               g0 + ((g1 - g0) * (t - t0)).tdiv (t1 - t0))) ∧
    CS.getAGammaAtTime 100 200 1000 2000 1000 2000 1500 = .ok (150, 1500) := by
  refine ⟨?_, ?_, ?_, ?_, ?_⟩
  · intro a0 a1 g0 g1 t0 t1 t h
    rw [CS.getAGammaAtTime, if_pos h]
  · intro a0 a1 g0 g1 t0 t1 t h1 h2
    rw [CS.getAGammaAtTime, if_neg (by omega), if_neg (by omega), if_pos (by omega)]
  · intro a0 a1 g0 g1 t0 t1 t h1 h2
    rw [CS.getAGammaAtTime, if_neg (by omega), if_pos (by omega)]
  · intro a0 a1 g0 g1 t0 t1 t h1 h2
    rw [CS.getAGammaAtTime, if_neg (by omega), if_neg (by omega), if_neg (by omega)]
    simp only [jsDiv_eq_tdiv, Except.ok.injEq, Prod.mk.injEq]
    constructor
    · split
      · have : (a1 - a0) * (t - t0) = -((a0 - a1) * (t - t0)) := by ring
        rw [this, Int.neg_tdiv]
        ring
      · rfl
    · split
      · have : (g1 - g0) * (t - t0) = -((g0 - g1) * (t - t0)) := by ring
        rw [this, Int.neg_tdiv]
        ring
      · rfl
  · rw [CS.getAGammaAtTime, if_neg (by omega), if_neg (by omega), if_neg (by omega)]
    norm_num [jsDiv]

/-- Witness for C7: the interpolation conjunct at the spec's literal seed,
and the endpoint conjuncts at the same ramp. -/
theorem c7_ramp_interpolation_witness :
    CS.getAGammaAtTime 100 200 1000 2000 1000 2000 1500 =
      .ok (100 + (((200 : Int) - 100) * (1500 - 1000)).tdiv (2000 - 1000),
           1000 + (((2000 : Int) - 1000) * (1500 - 1000)).tdiv (2000 - 1000)) ∧
    CS.getAGammaAtTime 100 200 1000 2000 1000 2000 900 = .ok (100, 1000) ∧
    CS.getAGammaAtTime 100 200 1000 2000 1000 2000 2400 = .ok (200, 2000) ∧
    CS.getAGammaAtTime 100 200 1000 2000 2000 2000 1500 = .error .invalidRamp :=
  ⟨c7_ramp_interpolation.2.2.2.1 100 200 1000 2000 1000 2000 1500
      (by decide) (by decide),
   c7_ramp_interpolation.2.1 100 200 1000 2000 1000 2000 900 (by decide) (by decide),
   c7_ramp_interpolation.2.2.1 100 200 1000 2000 1000 2000 2400 (by decide) (by decide),
   c7_ramp_interpolation.1 100 200 1000 2000 2000 2000 1500 (by decide)⟩

/-- C8 counterexample: the claim says the slippage helpers of **both**
modules fail with `INVALID_SLIPPAGE` for `bps` outside `[0, 10000]`, but the
StableSwap module's `calculateMinDy` performs no validation at all: at
`bps = 20000` it returns the value `-10000` for `amount = 10000` instead of
failing. -/
theorem c8_slippage_cex : SS.calculateMinDy 10000 20000 = -10000 := by
  norm_num [SS.calculateMinDy, jsDiv]

/-- C8 (amended): the CryptoSwap module's `calculateMinDy`/`calculateMaxDx`
return exactly `amount * (10000 ∓ bps) / 10000` for `bps ∈ [0, 10000]` and
fail with `INVALID_SLIPPAGE` outside that range; the StableSwap module's
`calculateMinDy` computes the same formula but for *every* `bps`, with no
range validation (and that module has no `calculateMaxDx` at all). -/
theorem c8_slippage_amended :
    (∀ amount bps : Int, 0 ≤ bps → bps ≤ 10000 →
        CS.calculateMinDy amount bps = .ok ((amount * (10000 - bps)).tdiv 10000) ∧
        CS.calculateMaxDx amount bps = .ok ((amount * (10000 + bps)).tdiv 10000)) ∧
    (∀ amount bps : Int, bps < 0 ∨ 10000 < bps →
        CS.calculateMinDy amount bps = .error .invalidSlippage ∧
        CS.calculateMaxDx amount bps = .error .invalidSlippage) ∧
    (∀ amount bps : Int,
        SS.calculateMinDy amount bps = (amount * (10000 - bps)).tdiv 10000) := by
  refine ⟨?_, ?_, ?_⟩
  · intro amount bps h1 h2
    rw [CS.calculateMinDy, if_neg (by omega), CS.calculateMaxDx, if_neg (by omega)]
    simp [jsDiv_eq_tdiv, BPS_DENOMINATOR]
  · intro amount bps h
    rw [CS.calculateMinDy, if_pos h, CS.calculateMaxDx, if_pos h]
    simp
  · intro amount bps
    rw [SS.calculateMinDy, jsDiv_eq_tdiv]

/-- Witness for C8: the amended theorem at the spec's literal seed
`calculateMinDy(1000·10¹⁸, 100) = 990·10¹⁸`, `calculateMaxDx(1000·10¹⁸,
100) = 1010·10¹⁸`, and the out-of-range rejection at `bps = 10001`. -/
theorem c8_slippage_amended_witness :
    CS.calculateMinDy (1000 * 10 ^ 18) 100 = .ok (990 * 10 ^ 18) ∧
    CS.calculateMaxDx (1000 * 10 ^ 18) 100 = .ok (1010 * 10 ^ 18) ∧
    CS.calculateMinDy 5 10001 = .error .invalidSlippage := by
  have h := c8_slippage_amended.1 (1000 * 10 ^ 18) 100 (by decide) (by decide)
  have h2 := (c8_slippage_amended.2.1 5 10001 (by norm_num)).1
  refine ⟨?_, ?_, h2⟩
  · rw [h.1]; norm_num [Int.tdiv]
  · rw [h.2]; norm_num [Int.tdiv]

/-- C10: the CryptoSwap liquidity-removal operations reject over-withdrawal:
with `totalSupply > 0` and an in-range coin index, `calcWithdrawOneCoin`
(and the 3-coin `calcWithdrawOneCoin3`) throw as soon as the LP amount to
burn exceeds `totalSupply`, and `calcRemoveLiquidity` /
`calcRemoveLiquidity3` do the same; `calcWithdrawOneCoin` also throws for
`totalSupply = 0` and returns `0` for a zero LP amount. -/
theorem c10_over_withdrawal_rejected :
    (∀ (p : CS.TwocryptoParams) (lp i ts : Int), 0 ≤ i → i ≤ 1 → 0 < ts → ts < lp →
        CS.calcWithdrawOneCoin p lp i ts = .error .exceedsSupply) ∧
    (∀ (p : CS.TricryptoParams) (lp i ts : Int), 0 ≤ i → i ≤ 2 → 0 < ts → ts < lp →
        CS.calcWithdrawOneCoin3 p lp i ts = .error .exceedsSupply) ∧
    (∀ (p : CS.TwocryptoParams) (lp i : Int), 0 ≤ i → i ≤ 1 →
        CS.calcWithdrawOneCoin p lp i 0 = .error .supplyZero) ∧
    (∀ (p : CS.TricryptoParams) (lp i : Int), 0 ≤ i → i ≤ 2 →
        CS.calcWithdrawOneCoin3 p lp i 0 = .error .supplyZero) ∧
    (∀ (p : CS.TwocryptoParams) (i ts : Int), 0 ≤ i → i ≤ 1 → 0 < ts →
        CS.calcWithdrawOneCoin p 0 i ts = .ok 0) ∧
    (∀ (p : CS.TricryptoParams) (i ts : Int), 0 ≤ i → i ≤ 2 → 0 < ts →
        CS.calcWithdrawOneCoin3 p 0 i ts = .ok 0) ∧
    (∀ (p : CS.TwocryptoParams) (lp ts : Int), 0 < ts → ts < lp →
        CS.calcRemoveLiquidity p lp ts = .error .exceedsSupply) ∧
    (∀ (p : CS.TricryptoParams) (lp ts : Int), 0 < ts → ts < lp →
        CS.calcRemoveLiquidity3 p lp ts = .error .exceedsSupply) := by
  refine ⟨?_, ?_, ?_, ?_, ?_, ?_, ?_, ?_⟩
  · intro p lp i ts h1 h2 h3 h4
    rw [CS.calcWithdrawOneCoin, if_neg (by omega), if_neg (by omega),
      if_neg (by omega), if_pos (by omega)]
  · intro p lp i ts h1 h2 h3 h4
    rw [CS.calcWithdrawOneCoin3, if_neg (by omega), if_neg (by omega),
      if_neg (by omega), if_pos (by omega)]
  · intro p lp i h1 h2
    rw [CS.calcWithdrawOneCoin, if_neg (by omega), if_pos rfl]
  · intro p lp i h1 h2
    rw [CS.calcWithdrawOneCoin3, if_neg (by omega), if_pos rfl]
  · intro p i ts h1 h2 h3
    rw [CS.calcWithdrawOneCoin, if_neg (by omega), if_neg (by omega), if_pos rfl]
  · intro p i ts h1 h2 h3
    rw [CS.calcWithdrawOneCoin3, if_neg (by omega), if_neg (by omega), if_pos rfl]
  · intro p lp ts h1 h2
    rw [CS.calcRemoveLiquidity, if_neg (by omega), if_pos (by omega)]
  · intro p lp ts h1 h2
    rw [CS.calcRemoveLiquidity3, if_neg (by omega), if_pos (by omega)]

/-- Witness for C10: every conjunct instantiated on small concrete two-coin
and three-coin snapshots. -/
theorem c10_over_withdrawal_rejected_witness :
    CS.calcWithdrawOneCoin ⟨1000, 1000, 1000, 1, 2, 1, 10 ^ 18, (50, 50), none⟩
        75 0 60 = .error .exceedsSupply ∧
    CS.calcWithdrawOneCoin3 ⟨1000, 1000, 1000, 1, 2, 1, (10 ^ 18, 10 ^ 18),
        (50, 50, 50), none⟩ 75 2 60 = .error .exceedsSupply ∧
    CS.calcWithdrawOneCoin ⟨1000, 1000, 1000, 1, 2, 1, 10 ^ 18, (50, 50), none⟩
        75 1 0 = .error .supplyZero ∧
    CS.calcWithdrawOneCoin3 ⟨1000, 1000, 1000, 1, 2, 1, (10 ^ 18, 10 ^ 18),
        (50, 50, 50), none⟩ 75 1 0 = .error .supplyZero ∧
    CS.calcWithdrawOneCoin ⟨1000, 1000, 1000, 1, 2, 1, 10 ^ 18, (50, 50), none⟩
        0 1 60 = .ok 0 ∧
    CS.calcWithdrawOneCoin3 ⟨1000, 1000, 1000, 1, 2, 1, (10 ^ 18, 10 ^ 18),
        (50, 50, 50), none⟩ 0 0 60 = .ok 0 ∧
    CS.calcRemoveLiquidity ⟨1000, 1000, 1000, 1, 2, 1, 10 ^ 18, (50, 50), none⟩
        75 60 = .error .exceedsSupply ∧
    CS.calcRemoveLiquidity3 ⟨1000, 1000, 1000, 1, 2, 1, (10 ^ 18, 10 ^ 18),
        (50, 50, 50), none⟩ 75 60 = .error .exceedsSupply :=
  ⟨c10_over_withdrawal_rejected.1 _ 75 0 60 (by decide) (by decide) (by decide) (by decide),
   c10_over_withdrawal_rejected.2.1 _ 75 2 60 (by decide) (by decide) (by decide) (by decide),
   c10_over_withdrawal_rejected.2.2.1 _ 75 1 (by decide) (by decide),
   c10_over_withdrawal_rejected.2.2.2.1 _ 75 1 (by decide) (by decide),
   c10_over_withdrawal_rejected.2.2.2.2.1 _ 1 60 (by decide) (by decide) (by decide),
   c10_over_withdrawal_rejected.2.2.2.2.2.1 _ 0 60 (by decide) (by decide) (by decide),
   c10_over_withdrawal_rejected.2.2.2.2.2.2.1 _ 75 60 (by decide) (by decide),
   c10_over_withdrawal_rejected.2.2.2.2.2.2.2 _ 75 60 (by decide) (by decide)⟩

namespace SSX

/-- `getDLoop` at positive fuel is one `dStep` followed by the convergence
test. -/
theorem getDLoop_succ (xp : List Int) (S Ann N nPow : Int) (fuel : Nat) (D : Int) :
    getDLoop xp S Ann N nPow (fuel + 1) D =
      match dStep xp S Ann N nPow D with
      | .error e => .error e
      | .ok Dnew =>
        if (if Dnew > D then Dnew - D ≤ 1 else D - Dnew ≤ 1) then .ok Dnew
        else getDLoop xp S Ann N nPow fuel Dnew := by
  rw [getDLoop, dStep]
  rcases SS.dpFold D xp D with e | dp0
  · rfl
  · rfl

/-- An `ok` result of the exact `getD` loop is always a converged one: it is
the image of one Newton step whose distance from the previous iterate is at
most one unit. -/
theorem getDLoop_ok_converged (xp : List Int) (S Ann N nPow : Int) :
    ∀ (fuel : Nat) (D D' : Int), getDLoop xp S Ann N nPow fuel D = .ok D' →
      ∃ Dp, dStep xp S Ann N nPow Dp = .ok D' ∧
        (if D' > Dp then D' - Dp ≤ 1 else Dp - D' ≤ 1) := by
  intro fuel
  induction fuel with
  | zero => intro D D' h; exact absurd h (by rw [getDLoop]; simp)
  | succ n ih =>
    intro D D' h
    rw [getDLoop_succ] at h
    rcases hs : dStep xp S Ann N nPow D with e | Dnew
    · rw [hs] at h; exact absurd h (by simp)
    · rw [hs] at h
      simp only at h
      by_cases hc : (if Dnew > D then Dnew - D ≤ 1 else D - Dnew ≤ 1)
      · rw [if_pos hc] at h
        injection h with h2
        subst h2
        exact ⟨D, hs, hc⟩
      · rw [if_neg hc] at h
        exact ih Dnew D' h

end SSX

/-- C2 counterexample: the claim asserts the error contract (`INVALID_A`
for a zero amplification, `ZERO_BALANCE`, `NO_CONVERGE`) "for both the
exact-mode getD and the normalized-mode getD", but the normalized-mode
`getD` performs none of those checks: with `Ann = 0` on `xp = [1, 1]` it
returns the value `2` instead of failing with `INVALID_A` (no division by
zero occurs on this trace — the result is an `ok`, not any error). -/
theorem c2_getD_errors_cex : SS.getD [1, 1] 0 = .ok 2 := by
  rw [← exEq_iff]
  decide

/-- C2 (amended): the exact-mode `getD` keeps the full claimed contract —
`0` on a zero balance sum, `ZERO_BALANCE` on a zero balance in a pool with
non-zero sum, `INVALID_A` on `amp = 0`, `NO_CONVERGE` when the `±1`
criterion is not met within 255 iterations, and every successful result is
a converged Newton-step image.  The normalized-mode `getD` keeps only the
zero-sum rule: it performs no `INVALID_A` check (see
`c2_getD_errors_cex`), its loop silently returns the current iterate when
the iteration budget is spent, and on a zero balance in a pool with
non-zero sum it propagates the raw division-by-zero `RangeError` instead
of `ZERO_BALANCE`. -/
theorem c2_getD_errors_amended :
    (∀ (xp : List Int) (amp : Int) (n : Nat), 2 ≤ n → xp.length = n → amp ≠ 0 →
        xp.foldl (· + ·) 0 = 0 → SSX.getD xp amp n = .ok 0) ∧
    (∀ (xp : List Int) (amp : Int) (n : Nat), 2 ≤ n → xp.length = n → amp ≠ 0 →
        xp.foldl (· + ·) 0 ≠ 0 → 0 ∈ xp → SSX.getD xp amp n = .error .zeroBalance) ∧
    (∀ (xp : List Int) (n : Nat), 2 ≤ n → xp.length = n →
        SSX.getD xp 0 n = .error .invalidA) ∧
    (∀ (xp : List Int) (amp : Int) (n : Nat), 2 ≤ n → xp.length = n → amp ≠ 0 →
        xp.foldl (· + ·) 0 ≠ 0 → ¬ (0 ∈ xp) →
        SSX.getD xp amp n =
          SSX.getDLoop xp (xp.foldl (· + ·) 0) (amp * n) n ((n : Int) ^ n)
            MAX_ITERATIONS (xp.foldl (· + ·) 0)) ∧
    (∀ (xp : List Int) (S Ann N nPow D : Int),
        SSX.getDLoop xp S Ann N nPow 0 D = .error .noConverge) ∧
    (∀ (xp : List Int) (S Ann N nPow : Int) (fuel : Nat) (D D' : Int),
        SSX.getDLoop xp S Ann N nPow fuel D = .ok D' →
        ∃ Dp, SSX.dStep xp S Ann N nPow Dp = .ok D' ∧
          (if D' > Dp then D' - Dp ≤ 1 else Dp - D' ≤ 1)) ∧
    (∀ (xp : List Int) (Ann : Int), xp.foldl (· + ·) 0 = 0 →
        SS.getD xp Ann = .ok 0) ∧
    (∀ (xp : List Int) (S Ann N nPow D : Int),
        SS.getDLoop xp S Ann N nPow 0 D = .ok D) ∧
    (∀ Ann : Int, SS.getD [0, 1] Ann = .error .divByZero) := by
  have hmem : ∀ (xp : List Int), xp.any (· == 0) = true ↔ 0 ∈ xp := by
    intro xp
    rw [List.any_eq_true]
    constructor
    · rintro ⟨x, hx, he⟩
      rw [beq_iff_eq] at he
      exact he ▸ hx
    · intro h
      exact ⟨0, h, by simp⟩
  refine ⟨?_, ?_, ?_, ?_, ?_, ?_, ?_, ?_, ?_⟩
  · intro xp amp n h1 h2 h3 h4
    rw [SSX.getD, if_neg (by omega), if_neg (by omega), if_neg h3]
    simp only [h4, eq_self_iff_true, if_true]
  · intro xp amp n h1 h2 h3 h4 h5
    rw [SSX.getD, if_neg (by omega), if_neg (by omega), if_neg h3]
    simp only [if_neg h4, if_pos ((hmem xp).mpr h5)]
  · intro xp n h1 h2
    rw [SSX.getD, if_neg (by omega), if_neg (by omega), if_pos rfl]
  · intro xp amp n h1 h2 h3 h4 h5
    rw [SSX.getD, if_neg (by omega), if_neg (by omega), if_neg h3]
    simp only [if_neg h4]
    rw [if_neg (by rw [hmem xp]; exact h5)]
  · intro xp S Ann N nPow D
    rw [SSX.getDLoop]
  · exact fun xp S Ann N nPow fuel D D' h =>
      SSX.getDLoop_ok_converged xp S Ann N nPow fuel D D' h
  · intro xp Ann h
    rw [SS.getD]
    simp only [h, eq_self_iff_true, if_true]
  · intro xp S Ann N nPow D
    rw [SS.getDLoop]
  · intro Ann
    rw [SS.getD]
    rw [if_neg (by decide)]
    rw [show MAX_ITERATIONS = 254 + 1 by rfl]
    rw [SS.getDLoop]
    rw [SS.dpFold]
    simp [jdiv]


/-- Witness for C2 (amended): each branch of the amended description hit on
a concrete two-coin pool — a zero-sum pool returns `D = 0`, a mixed pool
with a zero balance throws `ZERO_BALANCE`, `amp = 0` throws `INVALID_A`, a
balanced pool runs the loop and converges to `D = 2000`, the loop at zero
fuel throws `NO_CONVERGE`, a converged result is a `dStep` fixed point
within `1`, the normalized `getD` returns `0` on a zero-sum pool, the
normalized loop at spent budget returns its current iterate, and the
normalized `getD` on a zero balance propagates a division-by-zero. -/
theorem c2_getD_errors_amended_witness :
    SSX.getD [0, 0] 5 2 = .ok 0 ∧
    SSX.getD [0, 1] 5 2 = .error .zeroBalance ∧
    SSX.getD [1, 1] 0 2 = .error .invalidA ∧
    SSX.getD [1000, 1000] 100 2 = .ok 2000 ∧
    SSX.getDLoop [1, 1] 2 200 2 4 0 2 = .error .noConverge ∧
    (∃ Dp, SSX.dStep [1000, 1000] 2000 200 2 4 Dp = .ok 2000 ∧
      (if (2000 : Int) > Dp then 2000 - Dp ≤ 1 else Dp - 2000 ≤ 1)) ∧
    SS.getD [0, 0] 7 = .ok 0 ∧
    SS.getDLoop [5] 1 2 3 4 0 9 = .ok 9 ∧
    SS.getD [0, 1] 777 = .error .divByZero := by
  obtain ⟨h1, h2, h3, h4, h5, h6, h7, h8, h9⟩ := c2_getD_errors_amended
  refine ⟨?_, ?_, ?_, ?_, ?_, ?_, ?_, ?_, ?_⟩
  · exact h1 [0, 0] 5 2 (by decide) rfl (by decide) (by decide)
  · exact h2 [0, 1] 5 2 (by decide) rfl (by decide) (by decide) (by decide)
  · exact h3 [1, 1] 2 (by decide) rfl
  · rw [h4 [1000, 1000] 100 2 (by decide) rfl (by decide) (by decide) (by decide)]
    rw [← exEq_iff]
    decide
  · exact h5 [1, 1] 2 200 2 4 2
  · exact h6 [1000, 1000] 2000 200 2 4 255 2000 2000 (by rw [← exEq_iff]; decide)
  · exact h7 [0, 0] 7 rfl
  · exact h8 [5] 1 2 3 4 9
  · exact h9 777

/-- C6 counterexample: the claim asserts that on `i == j` the swap helpers —
"in particular the normalized-mode StableSwap `getDy`" — return `0`
silently, but the normalized-mode `getDy` performs no index validation at
all: with `i = j = 0` on the balanced pool `xp = [1000000, 1000000]`
(`Ann = 20000`, base fee `4000000`, no off-peg multiplier, `dx = 1000`) it
returns `905036`, not `0`. -/
theorem c6_index_handling_cex :
    SS.getDy 0 0 1000 [1000000, 1000000] 20000 4000000 0 = .ok 905036 := by
  rw [← exEq_iff]
  decide

/-- C6 (amended): on `i = j` or an index outside `[0, N)` the CryptoSwap
swap helper `getDy` returns `0` silently, and the exact-mode kernel
primitives fail with an error (`getY` on `i = j` and on out-of-range
indices, `getYD` on an out-of-range index); the normalized-mode StableSwap
`getDy`, however, performs no index validation and can return a non-zero
value when `i = j` (see `c6_index_handling_cex`). -/
theorem c6_index_handling_amended :
    (∀ (p : CS.TwocryptoParams) (i dx : Int), CS.getDy p i i dx = .ok 0) ∧
    (∀ (p : CS.TwocryptoParams) (i j dx : Int), i < 0 ∨ 1 < i ∨ j < 0 ∨ 1 < j →
        CS.getDy p i j dx = .ok 0) ∧
    (∀ (i : Int) (x : Int) (xp : List Int) (amp D : Int) (n : Nat),
        2 ≤ n → xp.length = n → SSX.getY i i x xp amp D n = .error .invalidIndex) ∧
    (∀ (i j : Int) (x : Int) (xp : List Int) (amp D : Int) (n : Nat),
        2 ≤ n → xp.length = n → i ≠ j → (i < 0 ∨ (n : Int) ≤ i ∨ j < 0 ∨ (n : Int) ≤ j) →
        SSX.getY i j x xp amp D n = .error .invalidIndex) ∧
    (∀ (amp i : Int) (xp : List Int) (D : Int) (n : Nat),
        2 ≤ n → xp.length = n → (i < 0 ∨ (n : Int) ≤ i) →
        SSX.getYD amp i xp D n = .error .invalidIndex) := by
  refine ⟨?_, ?_, ?_, ?_, ?_⟩
  · intro p i dx
    rw [CS.getDy, if_pos rfl]
  · intro p i j dx h
    rw [CS.getDy]
    by_cases hij : i = j
    · rw [if_pos hij]
    · rw [if_neg hij, if_pos (by omega)]
  · intro i x xp amp D n h1 h2
    rw [SSX.getY, if_neg (by omega), if_neg (by omega), if_pos rfl]
  · intro i j x xp amp D n h1 h2 h3 h4
    rw [SSX.getY, if_neg (by omega), if_neg (by omega), if_neg h3, if_pos h4]
  · intro amp i xp D n h1 h2 h3
    rw [SSX.getYD, if_neg (by omega), if_neg (by omega), if_pos h3]

/-- Witness for C6 (amended): each conjunct at a concrete input. -/
theorem c6_index_handling_amended_witness :
    CS.getDy ⟨1000, 1000, 1000, 1, 2, 1, 10 ^ 18, (50, 50), none⟩ 1 1 7 = .ok 0 ∧
    CS.getDy ⟨1000, 1000, 1000, 1, 2, 1, 10 ^ 18, (50, 50), none⟩ 0 2 7 = .ok 0 ∧
    SSX.getY 1 1 5 [10, 20] 100 30 2 = .error .invalidIndex ∧
    SSX.getY 0 2 5 [10, 20] 100 30 2 = .error .invalidIndex ∧
    SSX.getYD 100 2 [10, 20] 30 2 = .error .invalidIndex :=
  ⟨c6_index_handling_amended.1 _ 1 7,
   c6_index_handling_amended.2.1 _ 0 2 7 (by norm_num),
   c6_index_handling_amended.2.2.1 1 5 [10, 20] 100 30 2 (by norm_num) (by norm_num),
   c6_index_handling_amended.2.2.2.1 0 2 5 [10, 20] 100 30 2 (by norm_num) (by norm_num)
     (by norm_num) (by norm_num),
   c6_index_handling_amended.2.2.2.2 100 2 [10, 20] 30 2 (by norm_num) (by norm_num)
     (by norm_num)⟩

/-- C4 counterexample: the claim asserts `getDy(i,j,dx) ≥ 0` also for the
normalized-mode StableSwap `getDy`, but that function returns
`dy - feeAmount` without any clamping, and the dynamic fee can exceed
`FEE_DENOMINATOR`: on the (heavily imbalanced, but structurally valid)
snapshot `xp = [10^12, 10^18]`, `Ann = 20000`, base fee `2·10^9`, off-peg
multiplier `10^11`, the swap `getDy(0, 1, 10^12)` returns the negative
value `-279007121302965432`. -/
theorem c4_nonnegativity_cex :
    SS.getDy 0 1 (10 ^ 12) [10 ^ 12, 10 ^ 18] 20000 (2 * 10 ^ 9) (10 ^ 11) =
      .ok (-279007121302965432) := by
  rw [← exEq_iff]
  decide

/-- C4 (amended): the CryptoSwap `getDy` never returns a negative amount —
every successful result is `≥ 0` (each exit either returns `0` or clamps at
`0`).  The normalized-mode StableSwap `getDy` does **not** satisfy the
claim: it can return a negative value (see `c4_nonnegativity_cex`). -/
theorem c4_nonnegativity_amended (p : CS.TwocryptoParams) (i j dx v : Int)
    (h : CS.getDy p i j dx = .ok v) : 0 ≤ v := by
  rw [CS.getDy] at h
  simp only [] at h
  repeat' split at h
  all_goals try (injection h with h2)
  all_goals try omega
  all_goals cases h

/-- Witness for C4 (amended): a full swap evaluation on a balanced
Twocrypto pool (`A = 400000`, `γ = 145·10¹²`, `D = 2·10⁶·10¹⁸`, balances
`10⁶·10¹⁸` each — the spec's Twocrypto scenario); `getDy(0, 1, 100·10¹⁸)`
evaluates to `99969512165141163235`, and the theorem yields its
non-negativity. -/
theorem c4_nonnegativity_amended_witness : (0 : Int) ≤ 99969512165141163235 := by
  have hEval : CS.getDy ⟨400000, 145000000000000, 2000000000000000000000000,
      3000000, 30000000, 230000000000000, 1000000000000000000,
      (1000000000000000000000000, 1000000000000000000000000), some (1, 1)⟩ 0 1
      100000000000000000000 = .ok 99969512165141163235 := by
    rw [← exEq_iff]
    decide
  exact c4_nonnegativity_amended _ 0 1 100000000000000000000 99969512165141163235 hEval

namespace CS

/-- A `.inr` (converged) outcome of `nyStep` always satisfies the
convergence criterion `|y' - y0| < max(climit, y' / CONVERGENCE_THRESHOLD)`. -/
theorem nyStep_inr_converged (N A gamma sOthers D K0_i climit : Int) (y0 r : Int)
    (h : nyStep N A gamma sOthers D K0_i climit y0 = .ok (.inr r)) :
    (if r > y0 then r - y0 else y0 - r) <
      (if climit > jsDiv r CONVERGENCE_THRESHOLD then climit
       else jsDiv r CONVERGENCE_THRESHOLD) := by
  rw [nyStep] at h
  simp only [] at h
  repeat' split at h
  all_goals (cases h)
  all_goals (repeat' split)
  all_goals omega

/-- An `ok` result of the hardened `newtonY` loop is always a converged
one: it is the `.inr` outcome of one `nyStep`. -/
theorem nyLoop_ok_converged (N A gamma sOthers D K0_i climit : Int) :
    ∀ (fuel : Nat) (y0 r : Int),
      nyLoop N A gamma sOthers D K0_i climit fuel y0 = .ok r →
      ∃ yp, nyStep N A gamma sOthers D K0_i climit yp = .ok (.inr r) := by
  intro fuel
  induction fuel with
  | zero => intro y0 r h; exact absurd h (by rw [nyLoop]; simp)
  | succ n ih =>
    intro y0 r h
    rw [nyLoop] at h
    rcases hs : nyStep N A gamma sOthers D K0_i climit y0 with e | c
    · rw [hs] at h; exact absurd h (by simp)
    · rw [hs] at h
      rcases c with y | y
      · exact ih y r h
      · simp only [] at h
        injection h with h2
        subst h2
        exact ⟨y0, hs⟩

end CS

/-- C5 counterexample: the claim asserts that **both** CryptoSwap variants'
`newtonY` fail with `NO_CONVERGE` when the convergence criterion is not met
within the 255-iteration cap, but on `A = 1000`, `γ = 10¹⁶`,
`x = (10⁶, 10⁶)`, `D = 10²⁴`, `i = 1` the iteration does not converge
within 255 rounds — the hardened variant duly throws `NO_CONVERGE` — while
the earlier variant instead silently returns its current iterate
`159694869834260575228609527523257247`. -/
theorem c5_newton_cap_cex :
    CS.newtonY 1000 (10 ^ 16) (10 ^ 6, 10 ^ 6) (10 ^ 24) 1 = .error .noConverge ∧
    CSOld.newtonY 1000 (10 ^ 16) (10 ^ 6, 10 ^ 6) (10 ^ 24) 1 =
      .ok 159694869834260575228609527523257247 :=
  ⟨by rw [← exEq_iff]; decide, by rw [← exEq_iff]; decide⟩

/-- C5 (amended): the hardened `newtonY` keeps the claimed contract — its
loop fails with `NO_CONVERGE` when the 255-iteration budget is exhausted,
and any value it returns satisfies the convergence criterion
`|Δy| < max(convergence_limit, y / CONVERGENCE_THRESHOLD)` — but the
earlier variant's loop returns the current iterate when the budget is
exhausted instead of failing (see `c5_newton_cap_cex` for a concrete
non-converging input separating the two). -/
theorem c5_newton_cap_amended :
    (∀ N A gamma sOthers D K0_i climit y : Int,
        CS.nyLoop N A gamma sOthers D K0_i climit 0 y = .error .noConverge) ∧
    (∀ (N A gamma sOthers D K0_i climit : Int) (fuel : Nat) (y0 r : Int),
        CS.nyLoop N A gamma sOthers D K0_i climit fuel y0 = .ok r →
        ∃ yp, CS.nyStep N A gamma sOthers D K0_i climit yp = .ok (.inr r) ∧
          (if r > yp then r - yp else yp - r) <
            (if climit > jsDiv r CONVERGENCE_THRESHOLD then climit
             else jsDiv r CONVERGENCE_THRESHOLD)) ∧
    (∀ A gamma x_j D K0_i climit y : Int,
        CSOld.nyLoop A gamma x_j D K0_i climit 0 y = .ok y) := by
  refine ⟨?_, ?_, ?_⟩
  · intro N A gamma sOthers D K0_i climit y
    rw [CS.nyLoop]
  · intro N A gamma sOthers D K0_i climit fuel y0 r h
    obtain ⟨yp, hp⟩ := CS.nyLoop_ok_converged N A gamma sOthers D K0_i climit fuel y0 r h
    exact ⟨yp, hp, CS.nyStep_inr_converged N A gamma sOthers D K0_i climit yp r hp⟩
  · intro A gamma x_j D K0_i climit y
    rw [CSOld.nyLoop]

/-- Witness for C5 (amended): the converged-result conjunct instantiated on
a real converging run (the loop underlying
`newtonY(400000, 145·10¹², (1.0001·10²⁴, 10²⁴), 2·10²⁴, 1)`, which returns
`999900000476247789037341` after three iterations). -/
theorem c5_newton_cap_amended_witness :
    ∃ yp, CS.nyStep 2 400000 145000000000000 1000100000000000000000000
        (2 * 10 ^ 24) 1000100000000000000 20000000000 yp =
        .ok (.inr 999900000476247789037341) ∧
      (if (999900000476247789037341 : Int) > yp
       then 999900000476247789037341 - yp else yp - 999900000476247789037341) <
        (if (20000000000 : Int) > jsDiv 999900000476247789037341 CONVERGENCE_THRESHOLD
         then 20000000000
         else jsDiv 999900000476247789037341 CONVERGENCE_THRESHOLD) :=
  c5_newton_cap_amended.2.1 2 400000 145000000000000 1000100000000000000000000
    (2 * 10 ^ 24) 1000100000000000000 20000000000 255 999900009999000099990000
    999900000476247789037341 (by rw [← exEq_iff]; decide)

namespace SSX

/-- Soundness invariant of the binary search of `getDxExact`: if the upper
endpoint currently delivers at least `dy`, then so does whatever endpoint
the search finally returns. -/
theorem dxSearch_sound (i j dy : Int) (p : ExactPoolParams) :
    ∀ (fuel : Nat) (low high v : Int),
      getDyExact i j high p = .ok v → dy ≤ v →
      ∀ r, dxSearch i j dy p fuel low high = .ok r →
      ∃ w, getDyExact i j r p = .ok w ∧ dy ≤ w := by
  intro fuel
  induction fuel with
  | zero =>
    intro low high v hv hle r h
    rw [dxSearch] at h
    injection h with h2
    exact ⟨v, h2 ▸ hv, hle⟩
  | succ n ih =>
    intro low high v hv hle r h
    rw [dxSearch] at h
    split at h
    · injection h with h2
      exact ⟨v, h2 ▸ hv, hle⟩
    · rcases hm : getDyExact i j (jsDiv (low + high) 2) p with e | dyMid
      · rw [hm] at h
        exact absurd h (by simp)
      · rw [hm] at h
        simp only [] at h
        split at h
        · exact ih (jsDiv (low + high) 2) high v hv hle r h
        · exact ih low (jsDiv (low + high) 2) dyMid hm (by omega) r h

end SSX

/-- C3: for any target output `dy > 0`, a non-zero result `r` of
`getDxExact(i, j, dy, params)` is an input that delivers at least `dy`:
`getDyExact(i, j, r, params) ≥ dy` (the binary search returns the upper
endpoint); and when the upper bound `10 * max(balances)` still undershoots
`dy` after the up-to-10 doublings of the expansion phase, `getDxExact`
returns `0` (the target is reported unachievable). -/
theorem c3_dx_search_guarantee :
    (∀ (i j dy : Int) (p : SSX.ExactPoolParams) (r : Int), 0 < dy →
        SSX.getDxExact i j dy p = .ok r → r ≠ 0 →
        ∃ w, SSX.getDyExact i j r p = .ok w ∧ dy ≤ w) ∧
    (∀ (i j dy : Int) (p : SSX.ExactPoolParams) (hTop v : Int),
        SSX.dxExpand i j dy p 10
          (p.balances.foldl (fun a b => if a > b then a else b) 0 * 10) = .ok hTop →
        SSX.getDyExact i j hTop p = .ok v → v < dy →
        SSX.getDxExact i j dy p = .ok 0) := by
  constructor
  · intro i j dy p r hdy h hr
    rw [SSX.getDxExact] at h
    simp only [] at h
    split at h
    · exact absurd (Except.ok.inj h).symm hr
    split at h
    · exact absurd (Except.ok.inj h).symm hr
    split at h
    · exact absurd (Except.ok.inj h).symm hr
    split at h
    · exact absurd (Except.ok.inj h).symm hr
    rcases hE : SSX.dxExpand i j dy p 10
        (p.balances.foldl (fun a b => if a > b then a else b) 0 * 10) with e | high
    · rw [hE] at h
      exact absurd h (by simp)
    · rw [hE] at h
      simp only [] at h
      rcases hF : SSX.getDyExact i j high p with e | dyF
      · rw [hF] at h
        exact absurd h (by simp)
      · rw [hF] at h
        simp only [] at h
        split at h
        · exact absurd (Except.ok.inj h).symm hr
        · exact SSX.dxSearch_sound i j dy p 256 0 high dyF hF (by omega) r h
  · intro i j dy p hTop v hE hV hlt
    rw [SSX.getDxExact]
    simp only []
    rw [hE]
    simp only []
    rw [hV]
    simp only []
    rw [if_pos hlt]
    split
    · rfl
    split
    · rfl
    split
    · rfl
    split
    · rfl
    rfl

/-- Witness for C3: on a balanced two-coin pool with unit rates
(`balances = [100000, 100000]`, `A = 100`, `fee = 0.04 %`),
`getDxExact(0, 1, 50) = 51` and indeed `getDyExact(0, 1, 51) = 50 ≥ 50`;
and the target `dy = 10⁹` is unachievable — the expansion phase tops out
at `high = 1024·10⁶` which still only delivers `99960 < 10⁹` — so
`getDxExact` returns `0`. -/
theorem c3_dx_search_guarantee_witness :
    (∃ w, SSX.getDyExact 0 1 51 ⟨[100000, 100000], [10 ^ 18, 10 ^ 18], 100,
        4000000, 0⟩ = .ok w ∧ (50 : Int) ≤ w) ∧
    SSX.getDxExact 0 1 1000000000 ⟨[100000, 100000], [10 ^ 18, 10 ^ 18], 100,
        4000000, 0⟩ = .ok 0 :=
  ⟨c3_dx_search_guarantee.1 0 1 50 ⟨[100000, 100000], [10 ^ 18, 10 ^ 18], 100,
      4000000, 0⟩ 51 (by decide) (by rw [← exEq_iff]; decide) (by decide),
   c3_dx_search_guarantee.2 0 1 1000000000 ⟨[100000, 100000],
      [10 ^ 18, 10 ^ 18], 100, 4000000, 0⟩ 1024000000 99960
      (by rw [← exEq_iff]; decide) (by rw [← exEq_iff]; decide) (by decide)⟩

/-- C1: on every valid exact-mode snapshot — distinct in-range indices,
`dx > 0`, non-zero rates at `i` and `j` — `getDyExact` computes exactly the
spec's step sequence `getDyExactSpec`: `dy_raw = xp[j] - y - 1` with an
early `0` on non-positive `dy_raw`, the dynamic fee at the averaged pre-
and post-swap balances, and the clamped
`(dy_raw - fee * dy_raw / FEE_DENOMINATOR) * PRECISION / rates[j]`. -/
theorem c1_getdy_exact_matches_spec (i j dx : Int) (p : SSX.ExactPoolParams)
    (hij : ¬ i = j) (hi0 : 0 ≤ i) (hiN : i < (p.balances.length : Int))
    (hj0 : 0 ≤ j) (hjN : j < (p.balances.length : Int)) (hdx : 0 < dx)
    (hri : List.getD p.rates i.toNat 0 ≠ 0)
    (hrj : List.getD p.rates j.toNat 0 ≠ 0) :
    SSX.getDyExact i j dx p = SSX.getDyExactSpec i j dx p := by
  rw [SSX.getDyExact, SSX.getDyExactSpec]
  simp only []
  rw [if_neg hij, if_neg (by omega), if_neg (by omega),
    if_neg (by rintro (h | h); exacts [hri h, hrj h])]

/-- Witness for C1: the balanced two-coin pool with unit rates
(`balances = [100000, 100000]`, `A = 100`, `fee = 0.04 %`), swapping
`dx = 100` from coin 0 to coin 1; both sides evaluate to `.ok 99`. -/
theorem c1_getdy_exact_matches_spec_witness :
    SSX.getDyExact 0 1 100 ⟨[100000, 100000], [10 ^ 18, 10 ^ 18], 100,
        4000000, 0⟩ =
      SSX.getDyExactSpec 0 1 100 ⟨[100000, 100000], [10 ^ 18, 10 ^ 18], 100,
        4000000, 0⟩ :=
  c1_getdy_exact_matches_spec 0 1 100 ⟨[100000, 100000], [10 ^ 18, 10 ^ 18],
    100, 4000000, 0⟩ (by decide) (by decide) (by decide) (by decide)
    (by decide) (by decide) (by decide) (by decide)
